import Mathlib

/-!
Verification of the answer-to-embed transformation and mention-resolution
engine of the form-to-Discord relay (source: src/server.js, functions
sendDiscordMessage, parseYandexFormAnswers and isValidWebhookUrl).

Modelling conventions:
* JS strings are modelled as Lean strings (lists of characters); all the
  relevant JS operations (trim, split, length, substring, startsWith,
  digit stripping) act on ASCII or BMP characters, where the JS UTF-16
  code-unit view and the character view agree.
* Configuration fields that the source stores as JSON strings and decodes
  with JSON.parse inside a try/catch (discord_id_fields,
  conditional_mentions, question_titles) are modelled pre-decoded as
  Option values: none stands for an absent, empty or unparseable field,
  which in the source always leads to the documented default value.
* The wall-clock timestamp of the embed is omitted (real time).
* The axios network call is outside the modelled core: sendDiscordMessage
  returns the payload object it would POST, or the raised error message.
-/

/-- Model of JS String.prototype.trim: drop whitespace from both ends. -/
def jsTrim (s : String) : String :=
  String.mk (((s.data.dropWhile Char.isWhitespace).reverse.dropWhile Char.isWhitespace).reverse)

/-- Model of JS Array.prototype.join with a separator, on a list of strings. -/
def jsJoin (sep : String) : List String → String
  | [] => ""
  | [x] => x
  | x :: xs => x ++ sep ++ jsJoin sep xs

/-- Splitting walk for jsSplit: acc holds the current chunk reversed. -/
def splitCharAux (sep : Char) : List Char → List Char → List String
  | [], acc => [String.mk acc.reverse]
  | c :: rest, acc =>
      if c = sep then String.mk acc.reverse :: splitCharAux sep rest []
      else splitCharAux sep rest (c :: acc)

/-- Model of JS String.prototype.split with a one-character separator:
the empty string yields [""], adjacent separators yield empty chunks. -/
def jsSplit (sep : Char) (s : String) : List String :=
  splitCharAux sep s.data []

/-- Model of `text.replace(/[^0-9]/g, '')`: keep only decimal digits. -/
def stripNonDigits (s : String) : String :=
  String.mk (s.data.filter Char.isDigit)

/-- Model of `s.replace('#', '')`: JS replace with a string pattern removes
only the first occurrence. -/
def removeFirstHash (s : String) : String :=
  match s.data.span (fun c => c ≠ '#') with
  | (_, []) => s
  | (a, _ :: b) => String.mk (a ++ b)

/-- Value of a hexadecimal digit character, if it is one. -/
def hexVal (c : Char) : Option Nat :=
  if '0' ≤ c ∧ c ≤ '9' then some (c.toNat - '0'.toNat)
  else if 'a' ≤ c ∧ c ≤ 'f' then some (c.toNat - 'a'.toNat + 10)
  else if 'A' ≤ c ∧ c ≤ 'F' then some (c.toNat - 'A'.toNat + 10)
  else none

/-- Model of JS parseInt(s, 16): skip leading whitespace, optional sign,
optional 0x/0X prefix, then read the longest prefix of hex digits; NaN
(modelled as none) when that prefix is empty. -/
def parseInt16 (s : String) : Option Int :=
  let cs := s.data.dropWhile Char.isWhitespace
  let signed : Bool × List Char :=
    match cs with
    | '-' :: r => (true, r)
    | '+' :: r => (false, r)
    | _ => (false, cs)
  let body : List Char :=
    match signed.2 with
    | '0' :: 'x' :: r => r
    | '0' :: 'X' :: r => r
    | _ => signed.2
  let ds := body.takeWhile (fun c => (hexVal c).isSome)
  if ds = [] then none
  else
    let n : Nat := ds.foldl (fun acc c => acc * 16 + (hexVal c).getD 0) 0
    some (if signed.1 then -(Int.ofNat n) else Int.ofNat n)

/-- Insertion pass of a JS Set build: keep an element when it has not
been seen yet, remembering it for the rest of the walk. -/
def dedupSeen : List String → List String → List String
  | _, [] => []
  | seen, a :: l =>
      if a ∈ seen then dedupSeen seen l else a :: dedupSeen (seen ++ [a]) l

/-- Stable first-occurrence deduplication: model of `[...new Set(l)]`,
which iterates the Set in insertion order. -/
def dedupFirst (l : List String) : List String := dedupSeen [] l

/-- One normalized answer: `{question_id, text}` as produced by
parseYandexFormAnswers and consumed by sendDiscordMessage. -/
structure Answer where
  question_id : String
  text : String
deriving DecidableEq

/-- One conditional mention rule `{question_index, answer_value, role_id}`
(an element of the decoded conditional_mentions array). -/
structure Condition where
  question_index : Int
  answer_value : String
  role_id : String
deriving DecidableEq

/-- One entry of the decoded question_titles array: either a plain string
or an object carrying a title (the source reads only its .title property;
a JSON null entry behaves like the empty string, both being falsy). -/
inductive QTitle where
  | qstr (s : String)
  | qobj (title : String)
deriving DecidableEq

/-- Per-form configuration row, as read by sendDiscordMessage. String
fields use "" for an absent (JS-falsy) value; the three JSON-string
fields are modelled pre-decoded (see the header note). -/
structure FormConfig where
  webhook_url : String := ""
  title : String := ""
  description : String := ""
  color : String := ""
  footer : String := ""
  form_name : String := ""
  mentions : String := ""
  discord_id_fields : Option (List Int) := none
  conditional_mentions : Option (List Condition) := none
  question_titles : Option (List QTitle) := none

/-- The formData argument of sendDiscordMessage (only .title is read). -/
structure FormData where
  title : String := ""

/-- One embed field `{name, value, inline}`. -/
structure EmbedField where
  name : String
  value : String
  inlineFlag : Bool
deriving DecidableEq

/-- The embed object built by sendDiscordMessage (timestamp omitted:
wall clock). color is none when parseInt yielded NaN. -/
structure Embed where
  title : String
  description : Option String
  color : Option Int
  fields : List EmbedField
  footer : String
deriving DecidableEq

/-- The outbound webhook payload: content key present only when nonempty. -/
structure Payload where
  content : Option String
  embeds : List Embed
deriving DecidableEq

/-- MAX_QUESTIONS constant of the source. -/
def MAX_QUESTIONS : Nat := 20

/-- Decoded discord_id_fields with the source's default [0]. -/
def parsedDif (cfg : FormConfig) : List Int :=
  cfg.discord_id_fields.getD [0]

/-- Decoded conditional_mentions with the source's default []. -/
def parsedConds (cfg : FormConfig) : List Condition :=
  cfg.conditional_mentions.getD []

/-- Decoded question_titles with the source's default []. -/
def parsedTitles (cfg : FormConfig) : List QTitle :=
  cfg.question_titles.getD []

/-- JS `answers[i]` for a numeric index: undefined (none) outside bounds. -/
def getAnswer (answers : List Answer) (i : Int) : Option Answer :=
  if i < 0 then none else answers.get? i.toNat

/-- The user-id collection loop of sendDiscordMessage:
`discordIdFields.forEach(...)` pushing the stripped digit string of each
referenced answer whose digits number at least 17. -/
def collectDiscordIds (dif : List Int) (answers : List Answer) : List String :=
  dif.foldl
    (fun acc i =>
      match getAnswer answers i with
      | some a =>
          if a.text ≠ "" then
            let d := stripNonDigits a.text
            if 17 ≤ d.length then acc ++ [d] else acc
          else acc
      | none => acc)
    []

/-- Per-index user-id extraction (the body of the loop above, as a
partial map); proved equal to the loop in userIds_eq_filterMap. -/
def extractIdOpt (answers : List Answer) (i : Int) : Option String :=
  match getAnswer answers i with
  | some a =>
      if a.text ≠ "" then
        let d := stripNonDigits a.text
        if 17 ≤ d.length then some d else none
      else none
  | none => none

/-- The static role tokens: `mentions.split(',').map(trim).filter(len≥17)`
when mentions is truthy, else nothing. -/
def staticRolesOf (cfg : FormConfig) : List String :=
  if cfg.mentions ≠ "" then
    ((jsSplit ',' cfg.mentions).map jsTrim).filter (fun t => 17 ≤ t.length)
  else []

/-- The role tokens contributed by one rule when it fires:
`role_id.split(',').map(trim).filter(len≥17)`. -/
def condRoleTokens (rid : String) : List String :=
  ((jsSplit ',' rid).map jsTrim).filter (fun t => 17 ≤ t.length)

/-- Whether a conditional rule fires: the referenced answer exists, its
text is truthy (nonempty), and the trimmed text equals answer_value. -/
def condFires (answers : List Answer) (c : Condition) : Bool :=
  match getAnswer answers c.question_index with
  | some a => a.text != "" && jsTrim a.text == c.answer_value
  | none => false

/-- The working role-id list of the source: starts with the static roles,
then the conditional loop pushes the tokens of each firing rule. -/
def workingRoleIds (cfg : FormConfig) (answers : List Answer) : List String :=
  (parsedConds cfg).foldl
    (fun acc c => if condFires answers c then acc ++ condRoleTokens c.role_id else acc)
    (staticRolesOf cfg)

/-- Only the conditional part of the working list (same loop from []). -/
def conditionalRolesOf (conds : List Condition) (answers : List Answer) : List String :=
  conds.foldl
    (fun acc c => if condFires answers c then acc ++ condRoleTokens c.role_id else acc)
    []

/-- The tokens of one rule, or nothing when it does not fire. -/
def condContrib (answers : List Answer) (c : Condition) : List String :=
  if condFires answers c then condRoleTokens c.role_id else []

/-- roleIds after `[...new Set(roleIds)]`. -/
def roleIdsOf (cfg : FormConfig) (answers : List Answer) : List String :=
  dedupFirst (workingRoleIds cfg answers)

/-- The collected user ids (order of discord_id_fields, no dedup). -/
def userIdsOf (cfg : FormConfig) (answers : List Answer) : List String :=
  collectDiscordIds (parsedDif cfg) answers

/-- A role mention token. -/
def roleTok (id : String) : String := "<@&" ++ id ++ ">"

/-- A user mention token. -/
def userTok (id : String) : String := "<@" ++ id ++ ">"

/-- roleMentions string of the source ('' when no role ids). -/
def roleMentionsStr (cfg : FormConfig) (answers : List Answer) : String :=
  let l := roleIdsOf cfg answers
  if l ≠ [] then jsJoin " " (l.map roleTok) else ""

/-- userMentions string of the source ('' when no user ids). -/
def userMentionsStr (cfg : FormConfig) (answers : List Answer) : String :=
  let l := userIdsOf cfg answers
  if l ≠ [] then jsJoin " " (l.map userTok) else ""

/-- The content line: roles first (with a trailing space), then users,
then trim. -/
def contentLineOf (cfg : FormConfig) (answers : List Answer) : String :=
  jsTrim
    ((if roleMentionsStr cfg answers ≠ "" then roleMentionsStr cfg answers ++ " " else "")
      ++ (if userMentionsStr cfg answers ≠ "" then userMentionsStr cfg answers else ""))

/-- The embed color: `parseInt((color || '#5865f2').replace('#',''), 16)`. -/
def colorOf (cfg : FormConfig) : Option Int :=
  parseInt16 (removeFirstHash (if cfg.color ≠ "" then cfg.color else "#5865f2"))

/-- The display label of question index i (custom titles with the dual
string/object schema, else the generated label). -/
def questionTextOf (titles : List QTitle) (index : Nat) : String :=
  match titles.get? index with
  | some (QTitle.qstr s) => if s ≠ "" then s else "Вопрос " ++ Nat.repr (index + 1)
  | some (QTitle.qobj t) => if t ≠ "" then t else "Вопрос " ++ Nat.repr (index + 1)
  | none => "Вопрос " ++ Nat.repr (index + 1)

/-- The display value before length truncation: a user mention token for a
discord-id field whose stripped text has at least 17 digits, else the raw
text. -/
def rawDisplayOf (dif : List Int) (index : Nat) (text : String) : String :=
  if (Int.ofNat index) ∈ dif then
    if 17 ≤ (stripNonDigits text).length then userTok (stripNonDigits text) else text
  else text

/-- The display value placed in the field: truncated to 1020 characters
plus an ellipsis when longer than 1024. -/
def mkDisplayText (dif : List Int) (index : Nat) (text : String) : String :=
  if 1024 < (rawDisplayOf dif index text).length then
    String.mk ((rawDisplayOf dif index text).data.take 1020) ++ "..."
  else rawDisplayOf dif index text

/-- The data-field loop over the first MAX_QUESTIONS answers (an answer
with falsy text produces no field). -/
def dataFieldsOf (dif : List Int) (titles : List QTitle) (answers : List Answer) : List EmbedField :=
  (answers.take MAX_QUESTIONS).enum.foldl
    (fun acc p =>
      if p.2.text ≠ "" then
        acc ++ [⟨questionTextOf titles p.1, mkDisplayText dif p.1 p.2.text, false⟩]
      else acc)
    []

/-- The overflow summary field. -/
def noteFieldFor (n : Nat) : EmbedField :=
  ⟨"📝 Примечание",
   "Показаны первые " ++ Nat.repr MAX_QUESTIONS ++ " из " ++ Nat.repr n ++ " вопросов.",
   false⟩

/-- The placeholder field used when no field was produced. -/
def infoField : EmbedField :=
  ⟨"📝 Информация", "Нет данных для отображения", false⟩

/-- The field list after the overflow-summary step: data fields, then the
summary field when more than MAX_QUESTIONS answers came in. -/
def fieldsWithNote (cfg : FormConfig) (answers : List Answer) : List EmbedField :=
  if MAX_QUESTIONS < answers.length then
    dataFieldsOf (parsedDif cfg) (parsedTitles cfg) answers ++ [noteFieldFor answers.length]
  else dataFieldsOf (parsedDif cfg) (parsedTitles cfg) answers

/-- The full field list: data fields, then the summary when more than
MAX_QUESTIONS answers came in, then the placeholder when still empty. -/
def embedFieldsOf (cfg : FormConfig) (answers : List Answer) : List EmbedField :=
  if fieldsWithNote cfg answers = [] then [infoField] else fieldsWithNote cfg answers

/-- The embed object of sendDiscordMessage. -/
def embedOf (cfg : FormConfig) (fd : FormData) (answers : List Answer) : Embed :=
  { title :=
      if cfg.title ≠ "" then cfg.title
      else "📋 " ++ (if fd.title ≠ "" then fd.title else cfg.form_name)
    description := if cfg.description ≠ "" then some cfg.description else none
    color := colorOf cfg
    fields := embedFieldsOf cfg answers
    footer := if cfg.footer ≠ "" then cfg.footer else "GTA5RP LAMESA" }

/-- The outbound payload: content key only when the content line is
truthy. -/
def buildPayload (cfg : FormConfig) (fd : FormData) (answers : List Answer) : Payload :=
  { content := if contentLineOf cfg answers ≠ "" then some (contentLineOf cfg answers) else none
    embeds := [embedOf cfg fd answers] }

/-- isValidWebhookUrl of the source (truthiness plus prefix check). -/
def isValidWebhookUrl (url : String) : Bool :=
  url != "" && url.startsWith "https://discord.com/api/webhooks/"

/-- sendDiscordMessage up to the point where the payload is handed to the
delivery call: the two guard errors, then the constructed payload. -/
def sendDiscordMessage (formConfig : Option FormConfig) (formData : FormData)
    (answers : List Answer) : Except String Payload :=
  match formConfig with
  | none => Except.error "Неверная конфигурация формы"
  | some cfg =>
      if cfg.webhook_url = "" then Except.error "Неверная конфигурация формы"
      else if ¬ isValidWebhookUrl cfg.webhook_url then
        Except.error "Неверный URL вебхука Discord"
      else Except.ok (buildPayload cfg formData answers)

/-- Whether a relay attempt ended in a raised error (no payload). -/
def isError (r : Except String Payload) : Bool :=
  match r with
  | Except.error _ => true
  | Except.ok _ => false

/-- A JavaScript runtime value, as far as parseYandexFormAnswers can see
one. A string carries the outcome JSON.parse would have on it (none when
JSON.parse would throw), so that the one recursive call of the source is
structural; JSON.parse("") always throws, so the faithful representation
of the empty string carries none. -/
inductive JSValue where
  | null
  | undef
  | bool (b : Bool)
  | num (n : Int)
  | str (s : String) (parsed : Option JSValue)
  | arr (elems : List JSValue)
  | obj (entries : List (String × JSValue))

/-- JS truthiness of a value (numbers are modelled as integers; the NaN
corner of JS numbers is not modelled). -/
def jsTruthy (v : JSValue) : Bool :=
  match v with
  | .null => false
  | .undef => false
  | .bool b => b
  | .num n => n != 0
  | .str s _ => s != ""
  | .arr _ => true
  | .obj _ => true

/-- Model of JS String() coercion. Arrays join their elements with a
comma, rendering null and undefined as empty (Array.prototype.join). -/
def jsToString (v : JSValue) : String :=
  match v with
  | .null => "null"
  | .undef => "undefined"
  | .bool true => "true"
  | .bool false => "false"
  | .num n => Int.repr n
  | .str s _ => s
  | .arr l => jsArrJoin l
  | .obj _ => "[object Object]"
where
  /-- Comma join of String([...]) with the join rendering of each element. -/
  jsArrJoin : List JSValue → String
  | [] => ""
  | [x] =>
      (match x with
       | .null => ""
       | .undef => ""
       | x2 => jsToString x2)
  | x :: xs =>
      (match x with
       | .null => ""
       | .undef => ""
       | x2 => jsToString x2) ++ "," ++ jsArrJoin xs

/-- Quote a string as a JSON string literal (only quote and backslash are
escaped; control-character escapes are not modelled). -/
def quoteStr (s : String) : String :=
  String.mk ('"' :: (s.data.flatMap (fun c =>
    if c = '"' then ['\\', '"'] else if c = '\\' then ['\\', '\\'] else [c])) ++ ['"'])

/-- Model of JSON.stringify, used by the source on nested object answer
values. Undefined entries of objects are omitted; undefined array
elements render as null. -/
def jsStringify (v : JSValue) : String :=
  match v with
  | .null => "null"
  | .undef => "undefined"
  | .bool true => "true"
  | .bool false => "false"
  | .num n => Int.repr n
  | .str s _ => quoteStr s
  | .arr l => "[" ++ strArr l ++ "]"
  | .obj es => "\x7b" ++ strObj es ++ "\x7d"
where
  strArr : List JSValue → String
  | [] => ""
  | [x] =>
      (match x with
       | .undef => "null"
       | x2 => jsStringify x2)
  | x :: xs =>
      (match x with
       | .undef => "null"
       | x2 => jsStringify x2) ++ "," ++ strArr xs
  strObj : List (String × JSValue) → String
  | [] => ""
  | (k, v2) :: rest =>
      match v2 with
      | .undef => strObj rest
      | v3 =>
          let s := quoteStr k ++ ":" ++ jsStringify v3
          let r := strObj rest
          if r = "" then s else s ++ "," ++ r

/-- JS property read `v[k]`: throws (error) on null/undefined receivers,
undefined on primitives (their own properties are not modelled), the
entry or undefined on objects. -/
def jsGetProp (v : JSValue) (k : String) : Except Unit JSValue :=
  match v with
  | .null => Except.error ()
  | .undef => Except.error ()
  | .obj es => Except.ok (((es.find? (fun e => e.1 == k)).map (fun e => e.2)).getD JSValue.undef)
  | _ => Except.ok JSValue.undef

/-- Property read on a receiver already known to be truthy (never
null/undefined), as a total function. -/
def propPure (v : JSValue) (k : String) : JSValue :=
  match v with
  | .obj es => ((es.find? (fun e => e.1 == k)).map (fun e => e.2)).getD JSValue.undef
  | _ => JSValue.undef

/-- Object.keys-style enumeration of (key, value) pairs: entries of an
object, index/element pairs of an array, nothing for primitives (string
character keys all get skipped downstream, with the same result). -/
def entriesOf (v : JSValue) : List (String × JSValue) :=
  match v with
  | .obj es => es
  | .arr l => l.enum.map (fun p => (Nat.repr p.1, p.2))
  | _ => []

/-- `answer.text || answer.value || answer.answer || ''` with JS lazy
evaluation; throws when the receiver is null/undefined. -/
def answerTextProp (a : JSValue) : Except Unit JSValue := do
  let t ← jsGetProp a "text"
  if jsTruthy t then pure t
  else
    let v ← jsGetProp a "value"
    if jsTruthy v then pure v
    else
      let w ← jsGetProp a "answer"
      if jsTruthy w then pure w else pure (JSValue.str "" none)

/-- The array branch of parseYandexFormAnswers:
`answersData.map((answer, index) => ({question_id: answer.question_id ||
'q'+index, text: String(...)}))`. A question_id that is not a string is
coerced to its display string in the model. -/
def arrAnswers : List JSValue → Nat → Except Unit (List Answer)
  | [], _ => Except.ok []
  | a :: rest, i => do
      let qid ← jsGetProp a "question_id"
      let tv ← answerTextProp a
      let tail ← arrAnswers rest (i + 1)
      Except.ok (⟨if jsTruthy qid then jsToString qid else "q" ++ Nat.repr i,
                  jsToString tv⟩ :: tail)

/-- Join rendering of one element of a list-valued envelope field:
`item.text || item`, then Array.prototype.join stringification. -/
def envElemText (item : JSValue) : Except Unit String := do
  let t ← jsGetProp item "text"
  let chosen := if jsTruthy t then t else item
  pure (match chosen with
        | .null => ""
        | .undef => ""
        | c => jsToString c)

/-- The text of one envelope field value: lists joined with ", ", nested
objects JSON-stringified, otherwise String(). -/
def envFieldText (v : JSValue) : Except Unit String :=
  match v with
  | .arr l => do
      let parts ← l.mapM envElemText
      pure (String.intercalate ", " parts)
  | .obj es => Except.ok (jsStringify (.obj es))
  | v2 => Except.ok (jsToString v2)

/-- The envelope branch: iterate the data entries, skip falsy fields and
fields whose value is undefined or null, emit `{question_id: key, text}`. -/
def envAnswers : List (String × JSValue) → Except Unit (List Answer)
  | [] => Except.ok []
  | (k, field) :: rest =>
      if jsTruthy field then
        match propPure field "value" with
        | JSValue.undef => envAnswers rest
        | JSValue.null => envAnswers rest
        | v => do
            let t ← envFieldText v
            let tail ← envAnswers rest
            Except.ok (⟨k, t⟩ :: tail)
      else envAnswers rest

/-- The flat-object branch: one answer per key outside the envelope
metadata key set, in enumeration order. -/
def flatAnswers (es : List (String × JSValue)) : List Answer :=
  es.filterMap (fun p =>
    if ["formId", "form_id", "formTitle", "form_title", "answers"].contains p.1 then none
    else some ⟨p.1, jsToString p.2⟩)

/-- The body of parseYandexFormAnswers inside its try block: an error
value stands for a thrown exception. -/
def parseWorker (v : JSValue) : Except Unit (List Answer) :=
  if ¬ jsTruthy v then Except.ok []
  else
    match v with
    | .arr l => arrAnswers l 0
    | .str s parsed =>
        (match parsed with
         | some v2 => parseWorker v2
         | none => Except.ok [⟨"q0", s⟩])
    | .obj es =>
        let ansP := propPure (.obj es) "answer"
        if jsTruthy ansP ∧ jsTruthy (propPure ansP "data") then
          envAnswers (entriesOf (propPure ansP "data"))
        else Except.ok (flatAnswers es)
    | _ => Except.ok []

/-- parseYandexFormAnswers: the worker with the outer catch that turns
any exception into the empty sequence. -/
def parseYandexFormAnswers (v : JSValue) : List Answer :=
  match parseWorker v with
  | Except.ok l => l
  | Except.error _ => []

/-- Per-pair data-field construction (the body of the embed field loop as
a partial map); proved equal to the loop in dataFieldsOf_eq. -/
def fieldContrib (dif : List Int) (titles : List QTitle) (p : Nat × Answer) : Option EmbedField :=
  if p.2.text ≠ "" then
    some ⟨questionTextOf titles p.1, mkDisplayText dif p.1 p.2.text, false⟩
  else none

/-- A string that starts with a role/user mention opener and ends with
its closer; such strings survive trimming unchanged. -/
def tokLike (s : String) : Prop :=
  s.data.head? = some '<' ∧ s.data.getLast? = some '>'

/-- Modelled from the words of claim C1: the working role-id list built
with the conditional-rule roles first and the static mentions roles
second, then deduplicated keeping first occurrences. The source builds
the list in the opposite order; see the C1 counterexample. -/
def roleIdsClaimOrder (cfg : FormConfig) (answers : List Answer) : List String :=
  dedupFirst (conditionalRolesOf (parsedConds cfg) answers ++ staticRolesOf cfg)

/-- A syntactically valid Discord webhook URL used by the concrete
examples. -/
def WURL : String := "https://discord.com/api/webhooks/1/abc"

/-- C1 counterexample config: one static role and one firing conditional
rule with a different role. -/
def cfgC1 : FormConfig :=
  { webhook_url := WURL
    mentions := "11111111111111111"
    conditional_mentions := some [⟨0, "Yes", "22222222222222222"⟩] }

/-- C1 counterexample answers. -/
def ansC1 : List Answer := [⟨"q0", "Yes"⟩]

/-- C5 counterexample config: a rule expecting the empty answer value. -/
def cfgC5 : FormConfig :=
  { webhook_url := WURL
    conditional_mentions := some [⟨0, "", "11111111111111111"⟩] }

/-- C5 counterexample answers: the referenced answer exists with empty
(hence JS-falsy) text, whose trimmed form equals the expected value. -/
def ansC5 : List Answer := [⟨"q0", ""⟩]

/-- C5 witness config (Scenario B of the spec). -/
def cfgB : FormConfig :=
  { webhook_url := WURL
    conditional_mentions :=
      some [⟨0, "Yes", "111111111111111111,222222222222222222"⟩] }

/-- C5 witness answers (Scenario B of the spec). -/
def ansB : List Answer := [⟨"q0", "Yes"⟩]

/-- C6 counterexample config: the same answer index listed twice in
discord_id_fields. -/
def cfgC6 : FormConfig :=
  { webhook_url := WURL
    discord_id_fields := some [0, 0] }

/-- C6 counterexample answers: one 18-digit user id. -/
def ansC6 : List Answer := [⟨"q0", "123456789012345678"⟩]

/-- A minimal config with only the webhook URL set (all defaults). -/
def cfgMin : FormConfig := { webhook_url := WURL }

/-- C7 counterexample text: 1022 digit characters, so the mention token
would have 1025 characters and gets truncated. -/
def txt7 : String := String.mk (List.replicate 1022 '1')

/-- C7 counterexample answers. -/
def ans7 : List Answer := [⟨"q0", txt7⟩]

/-- C9 counterexample config: a present but non-hexadecimal color. -/
def cfgC9 : FormConfig := { webhook_url := WURL, color := "zzz" }

/-- Default formData value for concrete examples. -/
def fd0 : FormData := {}

/-- 25 concrete answers for the C3 witness (Scenario D of the spec). -/
def ansW25 : List Answer := List.replicate 25 ⟨"q", "a"⟩

/-- One concrete answer for the C4 witness. -/
def ansW1 : List Answer := [⟨"q0", "hi"⟩]

theorem str_data_append (s t : String) : (s ++ t).data = s.data ++ t.data := by
  cases s; cases t; rfl

theorem str_ext (s t : String) (h : s.data = t.data) : s = t := by
  cases s; cases t; exact congrArg String.mk h

theorem str_length_data (s : String) : s.length = s.data.length := rfl

theorem str_append_empty (s : String) : s ++ "" = s := by
  apply str_ext; rw [str_data_append]; simp

theorem str_empty_append (s : String) : "" ++ s = s := by
  apply str_ext; rw [str_data_append]; rfl

theorem str_append_assoc (a b c : String) : (a ++ b) ++ c = a ++ (b ++ c) := by
  apply str_ext; simp [str_data_append]

theorem str_eq_empty_iff (s : String) : s = "" ↔ s.data = [] := by
  constructor
  · intro h; rw [h]
  · intro h; exact str_ext _ _ h

theorem mem_dedupSeen :
    ∀ (l seen : List String) (a : String), a ∈ dedupSeen seen l ↔ a ∈ l ∧ a ∉ seen := by
  intro l
  induction l with
  | nil => intro seen a; simp [dedupSeen]
  | cons b t ih =>
      intro seen a
      unfold dedupSeen
      by_cases hb : b ∈ seen
      · rw [if_pos hb, ih]
        constructor
        · rintro ⟨h1, h2⟩; exact ⟨List.mem_cons_of_mem _ h1, h2⟩
        · rintro ⟨h1, h2⟩
          rcases List.mem_cons.mp h1 with rfl | h1
          · exact absurd hb h2
          · exact ⟨h1, h2⟩
      · rw [if_neg hb]
        simp only [List.mem_cons, ih]
        constructor
        · rintro (rfl | ⟨h1, h2⟩)
          · exact ⟨Or.inl rfl, hb⟩
          · refine ⟨Or.inr h1, fun hc => h2 ?_⟩
            simp [hc]
        · rintro ⟨rfl | h1, h2⟩
          · exact Or.inl rfl
          · by_cases hab : a = b
            · exact Or.inl hab
            · refine Or.inr ⟨h1, fun hc => ?_⟩
              rcases List.mem_append.mp hc with hc | hc
              · exact h2 hc
              · simp at hc; exact hab hc

theorem mem_dedupFirst (l : List String) (a : String) : a ∈ dedupFirst l ↔ a ∈ l := by
  unfold dedupFirst
  rw [mem_dedupSeen]
  simp

theorem nodup_dedupSeen : ∀ (l seen : List String), (dedupSeen seen l).Nodup := by
  intro l
  induction l with
  | nil => intro seen; simp [dedupSeen]
  | cons b t ih =>
      intro seen
      unfold dedupSeen
      by_cases hb : b ∈ seen
      · rw [if_pos hb]; exact ih seen
      · rw [if_neg hb]
        refine List.nodup_cons.mpr ⟨?_, ih _⟩
        intro hmem
        have hm := (mem_dedupSeen t (seen ++ [b]) b).mp hmem
        exact hm.2 (by simp)

theorem nodup_dedupFirst (l : List String) : (dedupFirst l).Nodup :=
  nodup_dedupSeen l []

theorem sublist_dedupSeen : ∀ (l seen : List String), List.Sublist (dedupSeen seen l) l := by
  intro l
  induction l with
  | nil => intro seen; simp [dedupSeen]
  | cons b t ih =>
      intro seen
      unfold dedupSeen
      by_cases hb : b ∈ seen
      · rw [if_pos hb]; exact (ih seen).trans (List.sublist_cons_self _ _)
      · rw [if_neg hb]; exact List.Sublist.cons₂ _ (ih _)

theorem sublist_dedupFirst (l : List String) : List.Sublist (dedupFirst l) l :=
  sublist_dedupSeen l []

theorem foldl_append_eq {α β : Type} (g : α → List β) :
    ∀ (l : List α) (acc : List β),
      l.foldl (fun a x => a ++ g x) acc = acc ++ l.flatMap g := by
  intro l
  induction l with
  | nil => intro acc; simp
  | cons x xs ih => intro acc; simp [ih, List.append_assoc]

theorem flatMap_toList_eq_filterMap {α β : Type} (g : α → Option β) :
    ∀ l : List α, (l.flatMap fun x => (g x).toList) = l.filterMap g := by
  intro l
  induction l with
  | nil => rfl
  | cons x xs ih => cases h : g x <;> simp [List.filterMap_cons, h, ih]

theorem collect_body_eq (answers : List Answer) :
    (fun (acc : List String) (i : Int) =>
      match getAnswer answers i with
      | some a =>
          if a.text ≠ "" then
            let d := stripNonDigits a.text
            if 17 ≤ d.length then acc ++ [d] else acc
          else acc
      | none => acc)
    = fun acc i => acc ++ (extractIdOpt answers i).toList := by
  funext acc i
  unfold extractIdOpt
  cases getAnswer answers i with
  | none => simp
  | some a =>
      by_cases h : a.text = ""
      · simp [h]
      · by_cases h2 : 17 ≤ (stripNonDigits a.text).length <;> simp [h, h2]

theorem collectDiscordIds_eq (dif : List Int) (answers : List Answer) :
    collectDiscordIds dif answers = dif.filterMap (extractIdOpt answers) := by
  unfold collectDiscordIds
  rw [collect_body_eq, foldl_append_eq, flatMap_toList_eq_filterMap]
  rfl

theorem cond_body_eq (answers : List Answer) :
    (fun (acc : List String) (c : Condition) =>
      if condFires answers c then acc ++ condRoleTokens c.role_id else acc)
    = fun acc c => acc ++ condContrib answers c := by
  funext acc c
  unfold condContrib
  by_cases h : condFires answers c <;> simp [h]

theorem conditionalRolesOf_eq (conds : List Condition) (answers : List Answer) :
    conditionalRolesOf conds answers = conds.flatMap (condContrib answers) := by
  unfold conditionalRolesOf
  rw [cond_body_eq, foldl_append_eq]
  rfl

theorem workingRoleIds_eq (cfg : FormConfig) (answers : List Answer) :
    workingRoleIds cfg answers
      = staticRolesOf cfg ++ conditionalRolesOf (parsedConds cfg) answers := by
  unfold workingRoleIds
  rw [cond_body_eq, foldl_append_eq, conditionalRolesOf_eq]

theorem dataFields_body_eq (dif : List Int) (titles : List QTitle) :
    (fun (acc : List EmbedField) (p : Nat × Answer) =>
      if p.2.text ≠ "" then
        acc ++ [⟨questionTextOf titles p.1, mkDisplayText dif p.1 p.2.text, false⟩]
      else acc)
    = fun acc p => acc ++ (fieldContrib dif titles p).toList := by
  funext acc p
  unfold fieldContrib
  by_cases h : p.2.text = "" <;> simp [h]

theorem dataFieldsOf_eq (dif : List Int) (titles : List QTitle) (answers : List Answer) :
    dataFieldsOf dif titles answers
      = ((answers.take MAX_QUESTIONS).enum).filterMap (fieldContrib dif titles) := by
  unfold dataFieldsOf
  rw [dataFields_body_eq, foldl_append_eq, flatMap_toList_eq_filterMap]
  rfl

theorem dataFieldsOf_length_le (dif : List Int) (titles : List QTitle) (answers : List Answer) :
    (dataFieldsOf dif titles answers).length ≤ MAX_QUESTIONS := by
  rw [dataFieldsOf_eq]
  calc (((answers.take MAX_QUESTIONS).enum).filterMap (fieldContrib dif titles)).length
      ≤ ((answers.take MAX_QUESTIONS).enum).length := List.length_filterMap_le _ _
    _ = (answers.take MAX_QUESTIONS).length := by simp [List.enum_length]
    _ ≤ MAX_QUESTIONS := by simp [List.length_take]

theorem tokLike_roleTok (id : String) : tokLike (roleTok id) := by
  unfold tokLike roleTok
  rw [str_data_append, str_data_append]
  have h1 : ("<@&" : String).data = ['<', '@', '&'] := rfl
  have h2 : (">" : String).data = ['>'] := rfl
  rw [h1, h2]
  exact ⟨rfl, List.getLast?_concat _⟩

theorem tokLike_userTok (id : String) : tokLike (userTok id) := by
  unfold tokLike userTok
  rw [str_data_append, str_data_append]
  have h1 : ("<@" : String).data = ['<', '@'] := rfl
  have h2 : (">" : String).data = ['>'] := rfl
  rw [h1, h2]
  exact ⟨rfl, List.getLast?_concat _⟩

theorem tokLike_ne_empty (s : String) (h : tokLike s) : s ≠ "" := by
  intro he
  rw [he] at h
  exact Option.noConfusion h.1

theorem tokLike_data_cons (s : String) (h : tokLike s) : ∃ t, s.data = '<' :: t := by
  have h1 := h.1
  rcases hd : s.data with _ | ⟨c, t⟩
  · rw [hd] at h1; exact absurd h1 (by simp)
  · rw [hd, List.head?_cons, Option.some.injEq] at h1
    exact ⟨t, by rw [h1]⟩

theorem trimChars_noop (l : List Char) (h1 : l.head? = some '<') (h2 : l.getLast? = some '>') :
    ((l.dropWhile Char.isWhitespace).reverse.dropWhile Char.isWhitespace).reverse = l := by
  rcases hd : l with _ | ⟨c, t⟩
  · rw [hd] at h1; exact absurd h1 (by simp)
  · rw [hd] at h1 h2
    rw [List.head?_cons, Option.some.injEq] at h1
    subst h1
    have hws : Char.isWhitespace '<' = false := by decide
    rw [List.dropWhile_cons, hws]
    simp only [Bool.false_eq_true, if_false]
    rcases hr : ('<' :: t).reverse with _ | ⟨c2, t2⟩
    · exact absurd hr (by simp)
    · have hh : ('<' :: t).reverse.head? = some '>' := by
        rw [List.head?_reverse _]; exact h2
      rw [hr, List.head?_cons, Option.some.injEq] at hh
      subst hh
      have hws2 : Char.isWhitespace '>' = false := by decide
      have hdrop : List.dropWhile Char.isWhitespace ('>' :: t2) = '>' :: t2 := by
        rw [List.dropWhile_cons, hws2]
        simp
      rw [hdrop, ← hr, List.reverse_reverse]

theorem trimChars_concat_space (l : List Char) (h1 : l.head? = some '<')
    (h2 : l.getLast? = some '>') :
    (((l ++ [' ']).dropWhile Char.isWhitespace).reverse.dropWhile Char.isWhitespace).reverse
      = l := by
  rcases hd : l with _ | ⟨c, t⟩
  · rw [hd] at h1; exact absurd h1 (by simp)
  · rw [hd] at h1 h2
    rw [List.head?_cons, Option.some.injEq] at h1
    subst h1
    have hws : Char.isWhitespace '<' = false := by decide
    rw [List.cons_append, List.dropWhile_cons, hws]
    simp only [Bool.false_eq_true, if_false]
    rw [← List.cons_append, List.reverse_append]
    have hsp : ([' '] : List Char).reverse = [' '] := rfl
    rw [hsp]
    rw [List.singleton_append, List.dropWhile_cons]
    have hws1 : Char.isWhitespace ' ' = true := by decide
    rw [hws1]
    simp only [if_true]
    rcases hr : ('<' :: t).reverse with _ | ⟨c2, t2⟩
    · exact absurd hr (by simp)
    · have hh : ('<' :: t).reverse.head? = some '>' := by
        rw [List.head?_reverse _]; exact h2
      rw [hr, List.head?_cons, Option.some.injEq] at hh
      subst hh
      have hws2 : Char.isWhitespace '>' = false := by decide
      have hdrop : List.dropWhile Char.isWhitespace ('>' :: t2) = '>' :: t2 := by
        rw [List.dropWhile_cons, hws2]
        simp
      rw [hdrop, ← hr, List.reverse_reverse]

theorem jsTrim_tokLike (s : String) (h : tokLike s) : jsTrim s = s := by
  apply str_ext
  exact trimChars_noop s.data h.1 h.2

theorem jsTrim_concat_space (s : String) (h : tokLike s) : jsTrim (s ++ " ") = s := by
  apply str_ext
  have hd : (s ++ " ").data = s.data ++ [' '] := by rw [str_data_append]
  show (((s ++ " ").data.dropWhile Char.isWhitespace).reverse.dropWhile
      Char.isWhitespace).reverse = s.data
  rw [hd]
  exact trimChars_concat_space s.data h.1 h.2

theorem jsJoin_tokLike :
    ∀ l : List String, l ≠ [] → (∀ s ∈ l, tokLike s) → tokLike (jsJoin " " l) := by
  intro l
  induction l with
  | nil => intro h; exact absurd rfl h
  | cons x xs ih =>
      intro _ hall
      cases xs with
      | nil => exact hall x (by simp)
      | cons y ys =>
          have hx := hall x (by simp)
          have hJ := ih (by simp) (fun s hs => hall s (List.mem_cons_of_mem _ hs))
          show tokLike (x ++ " " ++ jsJoin " " (y :: ys))
          obtain ⟨t, hxd⟩ := tokLike_data_cons x hx
          constructor
          · rw [str_data_append, str_data_append, hxd]
            rfl
          · rw [str_data_append]
            rw [List.getLast?_append_of_ne_nil _ ?hne]
            · exact hJ.2
            · intro hnil
              exact tokLike_ne_empty _ hJ ((str_eq_empty_iff _).mpr hnil)

theorem jsJoin_append (sep : String) :
    ∀ l1 l2 : List String, l1 ≠ [] → l2 ≠ [] →
      jsJoin sep (l1 ++ l2) = jsJoin sep l1 ++ sep ++ jsJoin sep l2 := by
  intro l1
  induction l1 with
  | nil => intro l2 h; exact absurd rfl h
  | cons x xs ih =>
      intro l2 _ h2
      cases xs with
      | nil =>
          cases l2 with
          | nil => exact absurd rfl h2
          | cons z zs => rfl
      | cons y ys =>
          have happ : (y :: ys) ++ l2 ≠ [] := by simp
          show x ++ sep ++ jsJoin sep ((y :: ys) ++ l2)
              = (x ++ sep ++ jsJoin sep (y :: ys)) ++ sep ++ jsJoin sep l2
          rw [ih l2 (by simp) h2]
          simp only [str_append_assoc]

theorem roleTok_map_tokLike (l : List String) : ∀ s ∈ l.map roleTok, tokLike s := by
  intro s hs
  obtain ⟨id, _, rfl⟩ := List.mem_map.mp hs
  exact tokLike_roleTok id

theorem userTok_map_tokLike (l : List String) : ∀ s ∈ l.map userTok, tokLike s := by
  intro s hs
  obtain ⟨id, _, rfl⟩ := List.mem_map.mp hs
  exact tokLike_userTok id

theorem roleMentionsStr_nil (cfg : FormConfig) (ans : List Answer)
    (h : roleIdsOf cfg ans = []) : roleMentionsStr cfg ans = "" := by
  unfold roleMentionsStr
  rw [h]
  simp

theorem roleMentionsStr_join (cfg : FormConfig) (ans : List Answer)
    (h : roleIdsOf cfg ans ≠ []) :
    roleMentionsStr cfg ans = jsJoin " " ((roleIdsOf cfg ans).map roleTok) := by
  unfold roleMentionsStr
  rw [if_pos h]

theorem userMentionsStr_nil (cfg : FormConfig) (ans : List Answer)
    (h : userIdsOf cfg ans = []) : userMentionsStr cfg ans = "" := by
  unfold userMentionsStr
  rw [h]
  simp

theorem userMentionsStr_join (cfg : FormConfig) (ans : List Answer)
    (h : userIdsOf cfg ans ≠ []) :
    userMentionsStr cfg ans = jsJoin " " ((userIdsOf cfg ans).map userTok) := by
  unfold userMentionsStr
  rw [if_pos h]

theorem contentLine_eq (cfg : FormConfig) (ans : List Answer) :
    contentLineOf cfg ans
      = jsJoin " " ((roleIdsOf cfg ans).map roleTok ++ (userIdsOf cfg ans).map userTok) := by
  by_cases hR : roleIdsOf cfg ans = [] <;> by_cases hU : userIdsOf cfg ans = []
  · unfold contentLineOf
    rw [roleMentionsStr_nil cfg ans hR, userMentionsStr_nil cfg ans hU, hR, hU]
    decide
  · unfold contentLineOf
    rw [roleMentionsStr_nil cfg ans hR, userMentionsStr_join cfg ans hU, hR]
    have hUm : (userIdsOf cfg ans).map userTok ≠ [] := by simpa using hU
    have hJU := jsJoin_tokLike _ hUm (userTok_map_tokLike _)
    have hne := tokLike_ne_empty _ hJU
    rw [if_neg (show ¬(("" : String) ≠ "") by simp), if_pos hne, str_empty_append]
    simp only [List.map_nil, List.nil_append]
    exact jsTrim_tokLike _ hJU
  · unfold contentLineOf
    rw [roleMentionsStr_join cfg ans hR, userMentionsStr_nil cfg ans hU, hU]
    have hRm : (roleIdsOf cfg ans).map roleTok ≠ [] := by simpa using hR
    have hJR := jsJoin_tokLike _ hRm (roleTok_map_tokLike _)
    have hne := tokLike_ne_empty _ hJR
    rw [if_pos hne, if_neg (show ¬(("" : String) ≠ "") by simp), str_append_empty]
    simp only [List.map_nil, List.append_nil]
    exact jsTrim_concat_space _ hJR
  · unfold contentLineOf
    rw [roleMentionsStr_join cfg ans hR, userMentionsStr_join cfg ans hU]
    have hRm : (roleIdsOf cfg ans).map roleTok ≠ [] := by simpa using hR
    have hUm : (userIdsOf cfg ans).map userTok ≠ [] := by simpa using hU
    have hJR := jsJoin_tokLike _ hRm (roleTok_map_tokLike _)
    have hJU := jsJoin_tokLike _ hUm (userTok_map_tokLike _)
    have hneR := tokLike_ne_empty _ hJR
    have hneU := tokLike_ne_empty _ hJU
    rw [if_pos hneR, if_pos hneU]
    rw [jsJoin_append " " _ _ hRm hUm]
    have hall : ∀ s ∈ (roleIdsOf cfg ans).map roleTok ++ (userIdsOf cfg ans).map userTok,
        tokLike s := by
      intro s hs
      rcases List.mem_append.mp hs with h2 | h2
      · exact roleTok_map_tokLike _ s h2
      · exact userTok_map_tokLike _ s h2
    have hJ := jsJoin_tokLike _ (by simp [hRm]) hall
    rw [jsJoin_append " " _ _ hRm hUm] at hJ
    exact jsTrim_tokLike _ hJ

theorem contentLine_empty_iff (cfg : FormConfig) (ans : List Answer) :
    contentLineOf cfg ans = "" ↔ roleIdsOf cfg ans = [] ∧ userIdsOf cfg ans = [] := by
  rw [contentLine_eq]
  constructor
  · intro h
    by_cases hR : roleIdsOf cfg ans = [] <;> by_cases hU : userIdsOf cfg ans = []
    · exact ⟨hR, hU⟩
    all_goals {
      exfalso
      have hne : (roleIdsOf cfg ans).map roleTok ++ (userIdsOf cfg ans).map userTok ≠ [] := by
        simp [hR, hU]
      have hJ := jsJoin_tokLike _ hne (by
        intro s hs
        rcases List.mem_append.mp hs with h2 | h2
        · exact roleTok_map_tokLike _ s h2
        · exact userTok_map_tokLike _ s h2)
      exact tokLike_ne_empty _ hJ h
    }
  · rintro ⟨hR, hU⟩
    rw [hR, hU]
    rfl

theorem dataFieldsOf_take (dif : List Int) (titles : List QTitle) (ans : List Answer) :
    dataFieldsOf dif titles (ans.take MAX_QUESTIONS) = dataFieldsOf dif titles ans := by
  unfold dataFieldsOf
  rw [List.take_take]
  simp

theorem mkDisplayText_length_le (dif : List Int) (i : Nat) (t : String) :
    (mkDisplayText dif i t).length ≤ 1024 := by
  unfold mkDisplayText
  by_cases h : 1024 < (rawDisplayOf dif i t).length
  · rw [if_pos h]
    rw [str_length_data, str_data_append, List.length_append]
    have h1 : ((String.mk ((rawDisplayOf dif i t).data.take 1020)).data).length ≤ 1020 := by
      simp [List.length_take]
    have h2 : (("..." : String).data).length = 3 := rfl
    omega
  · rw [if_neg h]
    omega

theorem noteFieldFor_value_length (n : Nat) :
    (noteFieldFor n).value.length = 32 + (Nat.repr n).length := by
  show ("Показаны первые " ++ Nat.repr MAX_QUESTIONS ++ " из " ++ Nat.repr n
      ++ " вопросов.").length = 32 + (Nat.repr n).length
  rw [String.length_append, String.length_append, String.length_append,
    String.length_append]
  have a1 : ("Показаны первые " : String).length = 16 := rfl
  have a2 : (Nat.repr MAX_QUESTIONS).length = 2 := rfl
  have a3 : (" из " : String).length = 4 := rfl
  have a4 : (" вопросов." : String).length = 10 := rfl
  omega

/-- Claim C1, corrected part: in src/server.js the working role-id list
starts with the STATIC mentions roles and then appends the roles of each
firing conditional rule (the claim states the opposite build order);
after that it is deduplicated keeping first occurrences, so each role
identifier appears at most once, in first-occurrence order of the
static-then-conditional list. -/
theorem claim_C1_amended (cfg : FormConfig) (ans : List Answer) :
    roleIdsOf cfg ans
        = dedupFirst (staticRolesOf cfg ++ conditionalRolesOf (parsedConds cfg) ans)
    ∧ (roleIdsOf cfg ans).Nodup
    ∧ (∀ r, r ∈ roleIdsOf cfg ans ↔
        r ∈ staticRolesOf cfg ++ conditionalRolesOf (parsedConds cfg) ans)
    ∧ List.Sublist (roleIdsOf cfg ans)
        (staticRolesOf cfg ++ conditionalRolesOf (parsedConds cfg) ans) := by
  have hw := workingRoleIds_eq cfg ans
  refine ⟨by unfold roleIdsOf; rw [hw], nodup_dedupFirst _, ?_, ?_⟩
  · intro r
    unfold roleIdsOf
    rw [hw]
    exact mem_dedupFirst _ _
  · unfold roleIdsOf
    rw [hw]
    exact sublist_dedupFirst _

set_option maxHeartbeats 2000000 in
/-- Claim C1, counterexample: with one static role and one firing
conditional rule carrying a different role, the source resolves the
static role first, while the claim predicts the conditional role first. -/
theorem claim_C1_counterexample :
    roleIdsOf cfgC1 ansC1 = ["11111111111111111", "22222222222222222"]
    ∧ roleIdsClaimOrder cfgC1 ansC1 = ["22222222222222222", "11111111111111111"]
    ∧ roleIdsOf cfgC1 ansC1 ≠ roleIdsClaimOrder cfgC1 ansC1 := by
  decide

/-- Claim C2: the content line is the role-mention tokens followed by the
user-mention tokens, all joined by single spaces (roles before users, the
whole already trim-clean), and the payload carries no content key exactly
when both token blocks are empty. -/
theorem claim_C2 (cfg : FormConfig) (fd : FormData) (ans : List Answer) :
    contentLineOf cfg ans
        = jsJoin " " ((roleIdsOf cfg ans).map roleTok ++ (userIdsOf cfg ans).map userTok)
    ∧ ((buildPayload cfg fd ans).content = none ↔
        roleIdsOf cfg ans = [] ∧ userIdsOf cfg ans = []) := by
  refine ⟨contentLine_eq cfg ans, ?_⟩
  have hpc : (buildPayload cfg fd ans).content
      = if contentLineOf cfg ans ≠ "" then some (contentLineOf cfg ans) else none := rfl
  rw [hpc]
  constructor
  · intro h
    by_cases hc : contentLineOf cfg ans = ""
    · exact (contentLine_empty_iff cfg ans).mp hc
    · rw [if_pos hc] at h
      exact absurd h (by simp)
  · rintro ⟨hR, hU⟩
    have hc : contentLineOf cfg ans = "" := (contentLine_empty_iff cfg ans).mpr ⟨hR, hU⟩
    rw [if_neg (by simp [hc])]

/-- Claim C3: with more than MAX_QUESTIONS answers, only the first
MAX_QUESTIONS answers produce data fields, exactly one summary field
stating how many of the total were shown is appended, and the embed has
at most MAX_QUESTIONS + 1 = 21 fields. -/
theorem claim_C3 (cfg : FormConfig) (fd : FormData) (ans : List Answer)
    (h : MAX_QUESTIONS < ans.length) :
    (embedOf cfg fd ans).fields
        = dataFieldsOf (parsedDif cfg) (parsedTitles cfg) (ans.take MAX_QUESTIONS)
            ++ [noteFieldFor ans.length]
    ∧ (embedOf cfg fd ans).fields.length ≤ MAX_QUESTIONS + 1
    ∧ (noteFieldFor ans.length).value
        = "Показаны первые 20 из " ++ Nat.repr ans.length ++ " вопросов." := by
  have hfwn : fieldsWithNote cfg ans
      = dataFieldsOf (parsedDif cfg) (parsedTitles cfg) ans ++ [noteFieldFor ans.length] := by
    unfold fieldsWithNote
    rw [if_pos h]
  have hne : fieldsWithNote cfg ans ≠ [] := by
    rw [hfwn]; simp
  have hfields : (embedOf cfg fd ans).fields = fieldsWithNote cfg ans := by
    show embedFieldsOf cfg ans = fieldsWithNote cfg ans
    unfold embedFieldsOf
    rw [if_neg hne]
  refine ⟨?_, ?_, ?_⟩
  · rw [hfields, hfwn, dataFieldsOf_take]
  · rw [hfields, hfwn, List.length_append]
    have hb := dataFieldsOf_length_le (parsedDif cfg) (parsedTitles cfg) ans
    simp only [List.length_singleton]
    omega
  · have hpre : ("Показаны первые " ++ Nat.repr MAX_QUESTIONS ++ " из " : String)
        = "Показаны первые 20 из " := by decide
    show ("Показаны первые " ++ Nat.repr MAX_QUESTIONS ++ " из " ++ Nat.repr ans.length
        ++ " вопросов.") = "Показаны первые 20 из " ++ Nat.repr ans.length ++ " вопросов."
    rw [hpre]

/-- Claim C3 witness: Scenario D, 25 answers give at most 21 fields. -/
theorem claim_C3_witness :
    (embedOf cfgMin fd0 ansW25).fields.length ≤ MAX_QUESTIONS + 1 :=
  (claim_C3 cfgMin fd0 ansW25 (by decide)).2.1

/-- Claim C4: no embed field value exceeds 1024 characters (the overflow
summary needs the answer count's decimal form to stay in bounds, which
JS array lengths always do), and a display value longer than 1024
characters is replaced by its first 1020 characters plus an ellipsis. -/
theorem claim_C4 (cfg : FormConfig) (fd : FormData) (ans : List Answer)
    (hrep : (Nat.repr ans.length).length ≤ 992) :
    (∀ f ∈ (embedOf cfg fd ans).fields, f.value.length ≤ 1024)
    ∧ (∀ (dif : List Int) (i : Nat) (t : String),
        1024 < (rawDisplayOf dif i t).length →
          mkDisplayText dif i t
            = String.mk ((rawDisplayOf dif i t).data.take 1020) ++ "...") := by
  constructor
  · intro f hf
    have hf2 : f ∈ embedFieldsOf cfg ans := hf
    unfold embedFieldsOf at hf2
    by_cases he : fieldsWithNote cfg ans = []
    · rw [if_pos he] at hf2
      simp only [List.mem_singleton] at hf2
      subst hf2
      decide
    · rw [if_neg he] at hf2
      unfold fieldsWithNote at hf2
      have hdata : ∀ g ∈ dataFieldsOf (parsedDif cfg) (parsedTitles cfg) ans,
          g.value.length ≤ 1024 := by
        intro g hg
        rw [dataFieldsOf_eq] at hg
        obtain ⟨p, _, hp⟩ := List.mem_filterMap.mp hg
        unfold fieldContrib at hp
        by_cases ht : p.2.text = ""
        · rw [if_neg (by simp [ht])] at hp
          exact absurd hp (by simp)
        · rw [if_pos (by simp [ht])] at hp
          have hg2 := Option.some.inj hp
          rw [← hg2]
          exact mkDisplayText_length_le _ _ _
      by_cases hlen : MAX_QUESTIONS < ans.length
      · rw [if_pos hlen] at hf2
        rcases List.mem_append.mp hf2 with hdf | hnote
        · exact hdata f hdf
        · simp only [List.mem_singleton] at hnote
          subst hnote
          rw [noteFieldFor_value_length]
          omega
      · rw [if_neg hlen] at hf2
        exact hdata f hf2
  · intro dif i t h2
    unfold mkDisplayText
    rw [if_pos h2]

/-- Claim C4 witness: the single data field of a one-answer form is
within the 1024-character ceiling. -/
theorem claim_C4_witness :
    (⟨"Вопрос 1", "hi", false⟩ : EmbedField).value.length ≤ 1024 :=
  (claim_C4 cfgMin fd0 ansW1 (by decide)).1 ⟨"Вопрос 1", "hi", false⟩ (by decide)

/-- Claim C5, corrected part: a conditional rule contributes its roles
exactly when the referenced answer exists, its text is NONEMPTY (the
source's truthiness check, absent from the claim), and its trimmed text
equals answer_value; the roles are the comma-split, trimmed, length-17
tokens of role_id, and every contributed role reaches the resolved
role-id list. -/
theorem claim_C5_amended (conds : List Condition) (ans : List Answer) (r : String)
    (c : Condition) (cfg : FormConfig) :
    (r ∈ conditionalRolesOf conds ans ↔
      ∃ c2 ∈ conds, condFires ans c2 = true ∧ r ∈ condRoleTokens c2.role_id)
    ∧ (condFires ans c = true ↔
      ∃ a, getAnswer ans c.question_index = some a ∧ a.text ≠ ""
        ∧ jsTrim a.text = c.answer_value)
    ∧ (r ∈ conditionalRolesOf (parsedConds cfg) ans → r ∈ roleIdsOf cfg ans) := by
  refine ⟨?_, ?_, ?_⟩
  · rw [conditionalRolesOf_eq, List.mem_flatMap]
    constructor
    · rintro ⟨c2, hc2, hr⟩
      unfold condContrib at hr
      by_cases hf : condFires ans c2
      · exact ⟨c2, hc2, hf, by rwa [if_pos hf] at hr⟩
      · rw [if_neg hf] at hr
        exact absurd hr (by simp)
    · rintro ⟨c2, hc2, hf, hr⟩
      refine ⟨c2, hc2, ?_⟩
      unfold condContrib
      rwa [if_pos hf]
  · unfold condFires
    cases hg : getAnswer ans c.question_index with
    | none => simp
    | some a =>
        simp only [Bool.and_eq_true, bne_iff_ne, beq_iff_eq]
        constructor
        · rintro ⟨h1, h2⟩
          exact ⟨a, rfl, h1, h2⟩
        · rintro ⟨a2, ha2, h1, h2⟩
          rw [Option.some.injEq] at ha2
          subst ha2
          exact ⟨h1, h2⟩
  · intro hr
    have h1 : r ∈ workingRoleIds cfg ans := by
      rw [workingRoleIds_eq]
      exact List.mem_append.mpr (Or.inr hr)
    exact (mem_dedupFirst _ _).mpr h1

/-- Claim C5, counterexample: a rule expecting the empty answer value on
an existing answer with empty text; trimmed text equals answer_value, so
the claim predicts the 17-character role in the mention content, but the
source's truthiness check suppresses it. -/
theorem claim_C5_counterexample :
    getAnswer ansC5 0 = some ⟨"q0", ""⟩
    ∧ jsTrim "" = ""
    ∧ (parsedConds cfgC5 = [⟨0, "", "11111111111111111"⟩])
    ∧ roleIdsOf cfgC5 ansC5 = []
    ∧ "11111111111111111" ∉ roleIdsOf cfgC5 ansC5 := by
  decide

/-- Claim C5 witness: Scenario B, a firing rule with two comma-separated
roles puts both identifiers into the resolved role list. -/
theorem claim_C5_witness :
    "222222222222222222" ∈ conditionalRolesOf (parsedConds cfgB) ansB
    ∧ "222222222222222222" ∈ roleIdsOf cfgB ansB := by
  have h := claim_C5_amended (parsedConds cfgB) ansB "222222222222222222"
    ⟨0, "Yes", ""⟩ cfgB
  have hm : "222222222222222222" ∈ conditionalRolesOf (parsedConds cfgB) ansB := by
    decide
  exact ⟨hm, h.2.2 hm⟩

/-- Claim C6, corrected part: the collected user-id list equals the
per-index extraction mapped over discord_id_fields in order — one entry
per qualifying index, with NO deduplication (the claim asserts dedup). -/
theorem claim_C6_amended (cfg : FormConfig) (ans : List Answer) :
    userIdsOf cfg ans = (parsedDif cfg).filterMap (extractIdOpt ans) := by
  unfold userIdsOf
  exact collectDiscordIds_eq _ _

/-- Claim C6, counterexample: the same answer index listed twice in
discord_id_fields makes the same stripped identifier appear twice in
userIds and twice in the content line. -/
theorem claim_C6_counterexample :
    userIdsOf cfgC6 ansC6 = ["123456789012345678", "123456789012345678"]
    ∧ ¬ (userIdsOf cfgC6 ansC6).Nodup
    ∧ contentLineOf cfgC6 ansC6 = "<@123456789012345678> <@123456789012345678>" := by
  decide

/-- Claim C7, corrected part: a discord-id field whose stripped text has
between 17 and 1021 digits renders as exactly the user-mention token
(longer stripped texts overflow the 1024 ceiling and get truncated, see
the counterexample); below 17 digits the raw text is shown, provided it
fits the ceiling itself. -/
theorem claim_C7_amended (dif : List Int) (i : Nat) (t : String) :
    ((Int.ofNat i) ∈ dif → 17 ≤ (stripNonDigits t).length →
      (stripNonDigits t).length ≤ 1021 →
        mkDisplayText dif i t = userTok (stripNonDigits t))
    ∧ ((Int.ofNat i) ∈ dif → (stripNonDigits t).length < 17 → t.length ≤ 1024 →
        mkDisplayText dif i t = t) := by
  have hlen : (userTok (stripNonDigits t)).length = (stripNonDigits t).length + 3 := by
    unfold userTok
    rw [String.length_append, String.length_append]
    have a1 : ("<@" : String).length = 2 := rfl
    have a2 : (">" : String).length = 1 := rfl
    omega
  constructor
  · intro hmem h17 hfit
    have hraw : rawDisplayOf dif i t = userTok (stripNonDigits t) := by
      unfold rawDisplayOf
      rw [if_pos hmem, if_pos h17]
    unfold mkDisplayText
    rw [hraw, if_neg (by omega)]
  · intro hmem hlt hle
    have hraw : rawDisplayOf dif i t = t := by
      unfold rawDisplayOf
      rw [if_pos hmem, if_neg (by omega)]
    unfold mkDisplayText
    rw [hraw, if_neg (by omega)]

set_option maxRecDepth 10000 in
set_option maxHeartbeats 2000000 in
/-- Claim C7, counterexample: an answer of 1022 digit characters passes
the 17-digit test, but its mention token has 1025 characters, so the
field value is the truncated 1023-character form, not the exact token the
claim requires. -/
theorem claim_C7_counterexample :
    (Int.ofNat 0) ∈ parsedDif cfgMin
    ∧ 17 ≤ (stripNonDigits txt7).length
    ∧ ((embedOf cfgMin fd0 ans7).fields.map (fun f => f.value))
        ≠ [userTok (stripNonDigits txt7)]
    ∧ ((embedOf cfgMin fd0 ans7).fields.map (fun f => f.value.length)) = [1023] := by
  decide

/-- Claim C7 witness: Scenario A, an 18-digit answer in a discord-id
field renders as exactly its user-mention token. -/
theorem claim_C7_witness :
    mkDisplayText (parsedDif cfgMin) 0 "123456789012345678" = "<@123456789012345678>" := by
  have h := (claim_C7_amended (parsedDif cfgMin) 0 "123456789012345678").1
    (by decide) (by decide) (by decide)
  rw [h]
  decide

/-- Claim C8, corrected part: a NONEMPTY string that fails to JSON-parse
becomes a single answer with synthetic id q0 and the raw string as text
(the empty string is caught earlier by the falsy check and yields [],
see the counterexample); null, undefined, booleans and numbers yield the
empty sequence, and any exception inside the worker is caught and also
yields the empty sequence, so normalization never raises. -/
theorem claim_C8_amended (s : String) (v : JSValue) (b : Bool) (n : Int) :
    (s ≠ "" → parseYandexFormAnswers (JSValue.str s none) = [⟨"q0", s⟩])
    ∧ parseYandexFormAnswers JSValue.null = []
    ∧ parseYandexFormAnswers JSValue.undef = []
    ∧ parseYandexFormAnswers (JSValue.bool b) = []
    ∧ parseYandexFormAnswers (JSValue.num n) = []
    ∧ (∀ e, parseWorker v = Except.error e → parseYandexFormAnswers v = []) := by
  refine ⟨?_, rfl, rfl, ?_, ?_, ?_⟩
  · intro h
    have hw : parseWorker (JSValue.str s none) = Except.ok [⟨"q0", s⟩] := by
      unfold parseWorker
      rw [if_neg (by simp [jsTruthy, h])]
    unfold parseYandexFormAnswers
    rw [hw]
  · cases b <;> rfl
  · by_cases hn : n = 0
    · subst hn; rfl
    · have hw : parseWorker (JSValue.num n) = Except.ok [] := by
        unfold parseWorker
        rw [if_neg (by simp [jsTruthy, hn])]
      unfold parseYandexFormAnswers
      rw [hw]
  · intro e he
    unfold parseYandexFormAnswers
    rw [he]

/-- Claim C8, counterexample: the empty string fails JSON.parse, so the
claim predicts the single wrapped answer, but the source's leading falsy
check returns the empty sequence first. -/
theorem claim_C8_counterexample :
    parseYandexFormAnswers (JSValue.str "" none) = []
    ∧ ([] : List Answer) ≠ [⟨"q0", ""⟩] := by
  decide

/-- Claim C8 witness: an unparseable nonempty string wraps to one q0
answer; an array holding null makes the worker throw and the catch
returns the empty sequence. -/
theorem claim_C8_witness :
    parseYandexFormAnswers (JSValue.str "hi" none) = [⟨"q0", "hi"⟩]
    ∧ parseYandexFormAnswers (JSValue.arr [JSValue.null]) = [] := by
  refine ⟨(claim_C8_amended "hi" (JSValue.arr [JSValue.null]) true 0).1 (by decide), ?_⟩
  exact (claim_C8_amended "hi" (JSValue.arr [JSValue.null]) true 0).2.2.2.2.2 () rfl

/-- Claim C9, corrected part: the default color (the integer 0x5865f2 =
5793266 parsed from "#5865f2") applies exactly when config.color is
absent/empty; a PRESENT color whose hash-stripped form has no leading
hexadecimal digits parses to NaN (modelled none), not to the default. -/
theorem claim_C9_amended (cfg : FormConfig) (fd : FormData) (ans : List Answer) :
    (cfg.color = "" → (embedOf cfg fd ans).color = some 5793266)
    ∧ (cfg.color ≠ "" → parseInt16 (removeFirstHash cfg.color) = none →
        (embedOf cfg fd ans).color = none) := by
  constructor
  · intro h
    show colorOf cfg = some 5793266
    unfold colorOf
    rw [if_neg (by simp [h])]
    decide
  · intro h hn
    show colorOf cfg = none
    unfold colorOf
    rw [if_pos h]
    exact hn

/-- Claim C9, counterexample: color "zzz" is present but not parseable as
hexadecimal, so the embed color is NaN (none), which differs from the
default color the claim requires. -/
theorem claim_C9_counterexample :
    (embedOf cfgC9 fd0 []).color = none
    ∧ (embedOf cfgMin fd0 []).color = some 5793266
    ∧ cfgC9.color ≠ ""
    ∧ (embedOf cfgC9 fd0 []).color ≠ (embedOf cfgMin fd0 []).color := by
  decide

/-- Claim C9 witness: an absent color gives the default integer and the
invalid color "zzz" gives NaN. -/
theorem claim_C9_witness :
    (embedOf cfgMin fd0 []).color = some 5793266
    ∧ (embedOf cfgC9 fd0 []).color = none :=
  ⟨(claim_C9_amended cfgMin fd0 []).1 rfl,
   (claim_C9_amended cfgC9 fd0 []).2 (by decide) (by decide)⟩

/-- Claim C10: with a null config, an absent/empty webhook_url, or a
webhook_url not starting with the Discord webhook prefix,
sendDiscordMessage raises one of its two guard errors and produces no
payload. -/
theorem claim_C10 (fc : Option FormConfig) (fd : FormData) (ans : List Answer)
    (h : match fc with
         | none => True
         | some cfg => isValidWebhookUrl cfg.webhook_url = false) :
    isError (sendDiscordMessage fc fd ans) = true := by
  cases fc with
  | none => rfl
  | some cfg =>
      have h2 : isValidWebhookUrl cfg.webhook_url = false := h
      have hred : sendDiscordMessage (some cfg) fd ans
          = if cfg.webhook_url = "" then Except.error "Неверная конфигурация формы"
            else if ¬ isValidWebhookUrl cfg.webhook_url then
              Except.error "Неверный URL вебхука Discord"
            else Except.ok (buildPayload cfg fd ans) := rfl
      rw [hred]
      by_cases hw : cfg.webhook_url = ""
      · rw [if_pos hw]
        rfl
      · rw [if_neg hw, if_pos (by simp [h2])]
        rfl

/-- Claim C10 witness: a null form config is rejected with an error. -/
theorem claim_C10_witness : isError (sendDiscordMessage none fd0 []) = true :=
  claim_C10 none fd0 [] trivial
